import Mathlib

/-!
Shallow embedding of the TedTalkDatabase storage layer (src/tedtalk_db.py).

Each SQLite table is modelled as a list of rows kept in ascending-rowid
order.  A column declared `INTEGER PRIMARY KEY` is an alias for the rowid;
with no `AUTOINCREMENT`, SQLite assigns a freshly inserted row the rowid one
greater than the largest rowid currently in the table (1 when the table is
empty), which `nextId` reproduces.  `SELECT`s without `ORDER BY` scan the
table in rowid order, i.e. return the list as stored.  A query result row
(dict in Python) becomes a structure; `row_to_dict_or_none` becomes `Option`.
-/

namespace TedTalkDB

structure SpeakerRow where
  speaker_id : Nat
  speaker : String
  deriving Repr, DecidableEq

structure TopicRow where
  topic_id : Nat
  topic : String
  deriving Repr, DecidableEq

structure SpeechRow where
  speech_id : Nat
  title : String
  duration : Int
  views : Int
  date : String
  topic_id : Nat
  speaker_id : Nat
  deriving Repr, DecidableEq

structure ReviewRow where
  review_id : Nat
  content : String
  speech_id : Nat
  deriving Repr, DecidableEq

/-- Result row of the speech/topic/speaker join used by `get_speech_by_id`,
`get_all_speeches`, `get_speeches_by_speaker` and `get_speeches_by_topic`. -/
structure SpeechDict where
  speech_id : Nat
  title : String
  duration : Int
  views : Int
  date : String
  topic : String
  topic_id : Nat
  speaker : String
  speaker_id : Nat
  deriving Repr, DecidableEq

/-- Result row of the review/speech join used by `get_review_by_id`,
`get_all_reviews` and `get_reviews_by_speech`. -/
structure ReviewDict where
  review_id : Nat
  content : String
  speech_id : Nat
  speech_title : String
  deriving Repr, DecidableEq

/-- The four tables created by `create_tables`. -/
structure DBState where
  speakers : List SpeakerRow
  topics : List TopicRow
  speeches : List SpeechRow
  reviews : List ReviewRow
  deriving Repr, DecidableEq

/-- The state right after `create_tables`: four empty tables. -/
def emptyDB : DBState := ⟨[], [], [], []⟩

/-- SQLite rowid assignment for `INTEGER PRIMARY KEY` without
`AUTOINCREMENT`: one more than the largest rowid in use, 1 on an empty
table. -/
def nextId (ids : List Nat) : Nat := ids.foldr max 0 + 1

def nextSpeakerId (s : DBState) : Nat := nextId (s.speakers.map SpeakerRow.speaker_id)

def nextTopicId (s : DBState) : Nat := nextId (s.topics.map TopicRow.topic_id)

def nextSpeechId (s : DBState) : Nat := nextId (s.speeches.map SpeechRow.speech_id)

def nextReviewId (s : DBState) : Nat := nextId (s.reviews.map ReviewRow.review_id)

/-- Models `SELECT speaker_id, speaker FROM speaker WHERE speaker_id = ?`, fetchone. -/
def get_speaker_by_id (s : DBState) (speaker_id : Nat) : Option SpeakerRow :=
  s.speakers.find? (fun r => r.speaker_id == speaker_id)

/-- Models `SELECT speaker_id, speaker FROM speaker WHERE speaker = ?`, fetchone. -/
def get_speaker_by_name (s : DBState) (speaker : String) : Option SpeakerRow :=
  s.speakers.find? (fun r => r.speaker == speaker)

/-- Models `SELECT * FROM speaker`. -/
def get_all_speakers (s : DBState) : List SpeakerRow := s.speakers

/-- Models `INSERT OR IGNORE INTO speaker(speaker) VALUES(?)` (ignored when the
`UNIQUE` speaker name already exists), then `get_speaker_by_name`. -/
def insert_speaker (s : DBState) (speaker : String) : DBState × Option SpeakerRow :=
  if s.speakers.any (fun r => r.speaker == speaker) then
    (s, get_speaker_by_name s speaker)
  else
    let s' := { s with speakers := s.speakers ++ [⟨nextSpeakerId s, speaker⟩] }
    (s', get_speaker_by_name s' speaker)

/-- Models `SELECT topic_id, topic FROM topic WHERE topic_id = ?`, fetchone. -/
def get_topic_by_id (s : DBState) (topic_id : Nat) : Option TopicRow :=
  s.topics.find? (fun r => r.topic_id == topic_id)

/-- Models `SELECT topic_id, topic FROM topic WHERE topic = ?`, fetchone. -/
def get_topic_by_name (s : DBState) (topic : String) : Option TopicRow :=
  s.topics.find? (fun r => r.topic == topic)

/-- Models `SELECT * FROM topic`. -/
def get_all_topics (s : DBState) : List TopicRow := s.topics

/-- Models `INSERT OR IGNORE INTO topic(topic) VALUES(?)`, then `get_topic_by_name`. -/
def insert_topic (s : DBState) (topic : String) : DBState × Option TopicRow :=
  if s.topics.any (fun r => r.topic == topic) then
    (s, get_topic_by_name s topic)
  else
    let s' := { s with topics := s.topics ++ [⟨nextTopicId s, topic⟩] }
    (s', get_topic_by_name s' topic)

/-- The join `FROM speech, topic, speaker WHERE speech.topic_id =
topic.topic_id AND speech.speaker_id = speaker.speaker_id` restricted to one
speech row: the joined row, or none when its topic or speaker is missing. -/
def joinSpeech (s : DBState) (sp : SpeechRow) : Option SpeechDict :=
  match s.topics.find? (fun t => t.topic_id == sp.topic_id),
        s.speakers.find? (fun k => k.speaker_id == sp.speaker_id) with
  | some t, some k =>
      some ⟨sp.speech_id, sp.title, sp.duration, sp.views, sp.date,
            t.topic, t.topic_id, k.speaker, k.speaker_id⟩
  | _, _ => none

/-- The speech/topic/speaker join with `AND speech.speech_id = ?`, fetchone. -/
def get_speech_by_id (s : DBState) (speech_id : Nat) : Option SpeechDict :=
  (s.speeches.find? (fun sp => sp.speech_id == speech_id)).bind (joinSpeech s)

/-- The speech/topic/speaker join over the whole speech table. -/
def get_all_speeches (s : DBState) : List SpeechDict :=
  s.speeches.filterMap (joinSpeech s)

/-- The speech/topic/speaker join with `AND speaker.speaker_id = ?`. -/
def get_speeches_by_speaker (s : DBState) (speaker_id : Nat) : List SpeechDict :=
  (s.speeches.filter (fun sp => sp.speaker_id == speaker_id)).filterMap (joinSpeech s)

/-- The speech/topic/speaker join with `AND topic.topic_id = ?`. -/
def get_speeches_by_topic (s : DBState) (topic_id : Nat) : List SpeechDict :=
  (s.speeches.filter (fun sp => sp.topic_id == topic_id)).filterMap (joinSpeech s)

/-- Models `insert_topic(topic)`, `insert_speaker(speaker)`, look both up by name,
`INSERT INTO speech(...)` referencing their ids, then
`get_speech_by_id(cur.lastrowid)`.  The name lookups cannot fail right after
the inserts; the `none` arm mirrors the uncaught `TypeError` Python would
raise there and is unreachable. -/
def insert_speech (s : DBState) (title : String) (duration views : Int)
    (date topic speaker : String) : DBState × Option SpeechDict :=
  let s1 := (insert_topic s topic).1
  let s2 := (insert_speaker s1 speaker).1
  match get_topic_by_name s2 topic, get_speaker_by_name s2 speaker with
  | some t, some k =>
      let sid := nextSpeechId s2
      let s3 := { s2 with speeches :=
        s2.speeches ++ [⟨sid, title, duration, views, date, t.topic_id, k.speaker_id⟩] }
      (s3, get_speech_by_id s3 sid)
  | _, _ => (s2, none)

/-- The review/speech join `WHERE review.speech_id = speech.speech_id`
restricted to one review row. -/
def joinReview (s : DBState) (r : ReviewRow) : Option ReviewDict :=
  (s.speeches.find? (fun sp => sp.speech_id == r.speech_id)).map
    (fun sp => ⟨r.review_id, r.content, r.speech_id, sp.title⟩)

/-- The review/speech join with `AND review.review_id = ?`, fetchone. -/
def get_review_by_id (s : DBState) (review_id : Nat) : Option ReviewDict :=
  (s.reviews.find? (fun r => r.review_id == review_id)).bind (joinReview s)

/-- The review/speech join over the whole review table. -/
def get_all_reviews (s : DBState) : List ReviewDict :=
  s.reviews.filterMap (joinReview s)

/-- The review/speech join with `AND speech.speech_id = ?`. -/
def get_reviews_by_speech (s : DBState) (speech_id : Nat) : List ReviewDict :=
  (s.reviews.filter (fun r => r.speech_id == speech_id)).filterMap (joinReview s)

/-- Models `get_speech_by_id(speech_id)`; on success `INSERT INTO review(content,
speech_id)` and return `get_review_by_id(cur.lastrowid)` (`Sum.inl`); when
the lookup is `None`, subscripting it raises `TypeError`, which the code
catches and turns into the sentinel return value `1` (`Sum.inr 1`). -/
def insert_review (s : DBState) (content : String) (speech_id : Nat) :
    DBState × (Option ReviewDict ⊕ Nat) :=
  match get_speech_by_id s speech_id with
  | some d =>
      let rid := nextReviewId s
      let s' := { s with reviews := s.reviews ++ [⟨rid, content, d.speech_id⟩] }
      (s', Sum.inl (get_review_by_id s' rid))
  | none => (s, Sum.inr 1)

/-- Models `DELETE FROM review WHERE review_id = ?`. -/
def delete_review (s : DBState) (review_id : Nat) : DBState :=
  { s with reviews := s.reviews.filter (fun r => r.review_id != review_id) }

/-- Models `DELETE FROM review WHERE speech_id = ?` then
`DELETE FROM speech WHERE speech_id = ?`. -/
def delete_speech (s : DBState) (speech_id : Nat) : DBState :=
  { s with reviews := s.reviews.filter (fun r => r.speech_id != speech_id),
           speeches := s.speeches.filter (fun sp => sp.speech_id != speech_id) }

/-- Models `get_speeches_by_topic(topic_id)`; for each returned speech `DELETE FROM
review WHERE speech_id = ?`; then delete the speeches with that `topic_id`
and the topic itself. -/
def delete_topic (s : DBState) (topic_id : Nat) : DBState :=
  let speeches := get_speeches_by_topic s topic_id
  { s with reviews := s.reviews.filter
             (fun r => !(speeches.any (fun d => d.speech_id == r.speech_id))),
           speeches := s.speeches.filter (fun sp => sp.topic_id != topic_id),
           topics := s.topics.filter (fun t => t.topic_id != topic_id) }

/-- Models `get_speeches_by_speaker(speaker_id)`; for each returned speech `DELETE
FROM review WHERE speech_id = ?`; then delete the speeches with that
`speaker_id` and the speaker itself. -/
def delete_speaker (s : DBState) (speaker_id : Nat) : DBState :=
  let speeches := get_speeches_by_speaker s speaker_id
  { s with reviews := s.reviews.filter
             (fun r => !(speeches.any (fun d => d.speech_id == r.speech_id))),
           speeches := s.speeches.filter (fun sp => sp.speaker_id != speaker_id),
           speakers := s.speakers.filter (fun k => k.speaker_id != speaker_id) }

/-- One mutating call of the public interface (query calls do not change the
state). -/
inductive Op where
  | insertSpeaker (speaker : String)
  | insertTopic (topic : String)
  | insertSpeech (title : String) (duration views : Int) (date topic speaker : String)
  | insertReview (content : String) (speech_id : Nat)
  | deleteSpeaker (speaker_id : Nat)
  | deleteTopic (topic_id : Nat)
  | deleteSpeech (speech_id : Nat)
  | deleteReview (review_id : Nat)
  deriving Repr, DecidableEq

/-- The state transition of one operation. -/
def applyOp (s : DBState) : Op → DBState
  | .insertSpeaker speaker => (insert_speaker s speaker).1
  | .insertTopic topic => (insert_topic s topic).1
  | .insertSpeech title duration views date topic speaker =>
      (insert_speech s title duration views date topic speaker).1
  | .insertReview content speech_id => (insert_review s content speech_id).1
  | .deleteSpeaker speaker_id => delete_speaker s speaker_id
  | .deleteTopic topic_id => delete_topic s topic_id
  | .deleteSpeech speech_id => delete_speech s speech_id
  | .deleteReview review_id => delete_review s review_id

/-- The state after running a sequence of operations from the fresh store. -/
def runOps (ops : List Op) : DBState := ops.foldl applyOp emptyDB

/-- States reachable from the fresh store through the public interface. -/
def Reachable (s : DBState) : Prop := ∃ ops, runOps ops = s

/-- Referential integrity: every review references an existing speech and
every speech references an existing topic and speaker. -/
def Integrity (s : DBState) : Prop :=
  (∀ r ∈ s.reviews, ∃ sp ∈ s.speeches, sp.speech_id = r.speech_id) ∧
  (∀ sp ∈ s.speeches, (∃ t ∈ s.topics, t.topic_id = sp.topic_id) ∧
    (∃ k ∈ s.speakers, k.speaker_id = sp.speaker_id))

/-- Each table is strictly ascending in its rowid (hence rowids are unique). -/
def SortedIds (s : DBState) : Prop :=
  s.speakers.Pairwise (fun a b => a.speaker_id < b.speaker_id) ∧
  s.topics.Pairwise (fun a b => a.topic_id < b.topic_id) ∧
  s.speeches.Pairwise (fun a b => a.speech_id < b.speech_id) ∧
  s.reviews.Pairwise (fun a b => a.review_id < b.review_id)

/-- The store invariant maintained by every operation. -/
def Wf (s : DBState) : Prop := Integrity s ∧ SortedIds s

instance (s : DBState) : Decidable (Integrity s) := by
  unfold Integrity; infer_instance

instance (s : DBState) : Decidable (SortedIds s) := by
  unfold SortedIds; infer_instance

instance (s : DBState) : Decidable (Wf s) := by
  unfold Wf; infer_instance

/-! ### Basic list lemmas -/

theorem mem_le_foldr_max {x : Nat} : ∀ {ids : List Nat}, x ∈ ids → x ≤ ids.foldr max 0 := by
  intro ids
  induction ids with
  | nil => intro h; cases h
  | cons a l ih =>
      intro h
      rcases List.mem_cons.mp h with h | h
      · subst h; exact Nat.le_max_left _ _
      · exact Nat.le_trans (ih h) (Nat.le_max_right _ _)

theorem lt_nextId {x : Nat} {ids : List Nat} (h : x ∈ ids) : x < nextId ids :=
  Nat.lt_succ_of_le (mem_le_foldr_max h)

theorem find?_append_some {α : Type} {p : α → Bool} {l l' : List α} {a : α}
    (h : List.find? p l = some a) : List.find? p (l ++ l') = some a := by
  rw [List.find?_append, h]; rfl

theorem find?_append_of_none {α : Type} {p : α → Bool} {l l' : List α}
    (h : List.find? p l = none) : List.find? p (l ++ l') = List.find? p l' := by
  rw [List.find?_append, h]; rfl

theorem find?_isSome_append {α : Type} {p : α → Bool} {l l' : List α}
    (h : (List.find? p l).isSome) : List.find? p (l ++ l') = List.find? p l := by
  rcases Option.isSome_iff_exists.mp h with ⟨a, ha⟩
  rw [List.find?_append, ha]; rfl

theorem find?_of_exists {α : Type} {p : α → Bool} {l : List α}
    (h : ∃ x ∈ l, p x = true) :
    ∃ a, List.find? p l = some a ∧ a ∈ l ∧ p a = true := by
  rcases Option.isSome_iff_exists.mp (List.find?_isSome.mpr h) with ⟨a, ha⟩
  exact ⟨a, ha, List.mem_of_find?_eq_some ha, List.find?_some ha⟩

theorem nodup_map_of_pairwise_lt {α : Type} {f : α → Nat} {l : List α}
    (h : l.Pairwise (fun a b => f a < f b)) : (l.map f).Nodup :=
  List.pairwise_map.mpr (h.imp Nat.ne_of_lt)

/-- In a table whose key column is duplicate-free, looking a member up by its
own key finds exactly that member. -/
theorem find?_key_of_nodup {α : Type} {f : α → Nat} {l : List α}
    (hnd : (l.map f).Nodup) {a : α} (ha : a ∈ l) :
    List.find? (fun x => f x == f a) l = some a := by
  rcases find?_of_exists (p := fun x => f x == f a) ⟨a, ha, by simp⟩ with ⟨u, hu, hmem, hp⟩
  have : u = a := List.inj_on_of_nodup_map hnd hmem ha (by simpa using hp)
  rw [hu, this]

/-! ### Join lemmas -/

theorem joinSpeech_speech_id {s : DBState} {sp : SpeechRow} {d : SpeechDict}
    (h : joinSpeech s sp = some d) : d.speech_id = sp.speech_id := by
  unfold joinSpeech at h
  split at h
  · cases h; rfl
  · cases h

theorem joinReview_fields {s : DBState} {r : ReviewRow} {d : ReviewDict}
    (h : joinReview s r = some d) :
    d.review_id = r.review_id ∧ d.content = r.content ∧ d.speech_id = r.speech_id := by
  unfold joinReview at h
  rcases Option.map_eq_some'.mp h with ⟨sp, _, hd⟩
  cases hd
  exact ⟨rfl, rfl, rfl⟩

/-- Under referential integrity the speech/topic/speaker join never drops a
speech row. -/
theorem joinSpeech_of_integrity {s : DBState} (hI : Integrity s)
    {sp : SpeechRow} (hsp : sp ∈ s.speeches) :
    ∃ d, joinSpeech s sp = some d ∧ d.speech_id = sp.speech_id := by
  rcases hI.2 sp hsp with ⟨⟨t, ht, htid⟩, ⟨k, hk, hkid⟩⟩
  rcases find?_of_exists (p := fun x => x.topic_id == sp.topic_id)
      ⟨t, ht, by simp [htid]⟩ with ⟨t', ht', _, _⟩
  rcases find?_of_exists (p := fun x => x.speaker_id == sp.speaker_id)
      ⟨k, hk, by simp [hkid]⟩ with ⟨k', hk', _, _⟩
  refine ⟨⟨sp.speech_id, sp.title, sp.duration, sp.views, sp.date,
           t'.topic, t'.topic_id, k'.speaker, k'.speaker_id⟩, ?_, rfl⟩
  unfold joinSpeech
  rw [ht', hk']

/-- The join of an old speech row is unchanged when the topic and speaker
tables are only extended on the right (and the row's references resolve). -/
theorem joinSpeech_extend {s s' : DBState} (hI : Integrity s)
    {sp : SpeechRow} (hsp : sp ∈ s.speeches)
    (ht : s'.topics = s.topics ∨ ∃ t, s'.topics = s.topics ++ [t])
    (hk : s'.speakers = s.speakers ∨ ∃ k, s'.speakers = s.speakers ++ [k]) :
    joinSpeech s' sp = joinSpeech s sp := by
  rcases hI.2 sp hsp with ⟨⟨t, htm, htid⟩, ⟨k, hkm, hkid⟩⟩
  have h1 : s'.topics.find? (fun x => x.topic_id == sp.topic_id) =
      s.topics.find? (fun x => x.topic_id == sp.topic_id) := by
    have hs : (s.topics.find? (fun x => x.topic_id == sp.topic_id)).isSome :=
      List.find?_isSome.mpr ⟨t, htm, by simp [htid]⟩
    rcases ht with h | ⟨t', h⟩
    · rw [h]
    · rw [h]; exact find?_isSome_append hs
  have h2 : s'.speakers.find? (fun x => x.speaker_id == sp.speaker_id) =
      s.speakers.find? (fun x => x.speaker_id == sp.speaker_id) := by
    have hs : (s.speakers.find? (fun x => x.speaker_id == sp.speaker_id)).isSome :=
      List.find?_isSome.mpr ⟨k, hkm, by simp [hkid]⟩
    rcases hk with h | ⟨k', h⟩
    · rw [h]
    · rw [h]; exact find?_isSome_append hs
  unfold joinSpeech
  rw [h1, h2]

/-- Decomposition of a successful `get_speech_by_id`. -/
theorem get_speech_by_id_inv {s : DBState} {speech_id : Nat} {d : SpeechDict}
    (h : get_speech_by_id s speech_id = some d) :
    ∃ row, s.speeches.find? (fun sp => sp.speech_id == speech_id) = some row ∧
      row ∈ s.speeches ∧ joinSpeech s row = some d ∧ d.speech_id = row.speech_id := by
  rcases Option.bind_eq_some.mp h with ⟨row, hrow, hj⟩
  exact ⟨row, hrow, List.mem_of_find?_eq_some hrow, hj, joinSpeech_speech_id hj⟩

/-! ### Shapes of the upsert operations -/

theorem insert_topic_fst_cases (s : DBState) (topic : String) :
    (insert_topic s topic).1 = s ∨
    (insert_topic s topic).1 = { s with topics := s.topics ++ [⟨nextTopicId s, topic⟩] } := by
  unfold insert_topic
  split
  · exact Or.inl rfl
  · exact Or.inr rfl

theorem insert_speaker_fst_cases (s : DBState) (speaker : String) :
    (insert_speaker s speaker).1 = s ∨
    (insert_speaker s speaker).1 =
      { s with speakers := s.speakers ++ [⟨nextSpeakerId s, speaker⟩] } := by
  unfold insert_speaker
  split
  · exact Or.inl rfl
  · exact Or.inr rfl

theorem insert_topic_topics_cases (s : DBState) (topic : String) :
    (insert_topic s topic).1.topics = s.topics ∨
    ∃ t, (insert_topic s topic).1.topics = s.topics ++ [t] := by
  rcases insert_topic_fst_cases s topic with h | h
  · exact Or.inl (by rw [h])
  · exact Or.inr ⟨_, by rw [h]⟩

theorem insert_speaker_speakers_cases (s : DBState) (speaker : String) :
    (insert_speaker s speaker).1.speakers = s.speakers ∨
    ∃ k, (insert_speaker s speaker).1.speakers = s.speakers ++ [k] := by
  rcases insert_speaker_fst_cases s speaker with h | h
  · exact Or.inl (by rw [h])
  · exact Or.inr ⟨_, by rw [h]⟩

theorem insert_topic_speakers (s : DBState) (topic : String) :
    (insert_topic s topic).1.speakers = s.speakers := by
  rcases insert_topic_fst_cases s topic with h | h <;> rw [h]

theorem insert_topic_speeches (s : DBState) (topic : String) :
    (insert_topic s topic).1.speeches = s.speeches := by
  rcases insert_topic_fst_cases s topic with h | h <;> rw [h]

theorem insert_topic_reviews (s : DBState) (topic : String) :
    (insert_topic s topic).1.reviews = s.reviews := by
  rcases insert_topic_fst_cases s topic with h | h <;> rw [h]

theorem insert_speaker_topics (s : DBState) (speaker : String) :
    (insert_speaker s speaker).1.topics = s.topics := by
  rcases insert_speaker_fst_cases s speaker with h | h <;> rw [h]

theorem insert_speaker_speeches (s : DBState) (speaker : String) :
    (insert_speaker s speaker).1.speeches = s.speeches := by
  rcases insert_speaker_fst_cases s speaker with h | h <;> rw [h]

theorem insert_speaker_reviews (s : DBState) (speaker : String) :
    (insert_speaker s speaker).1.reviews = s.reviews := by
  rcases insert_speaker_fst_cases s speaker with h | h <;> rw [h]

/-- After `insert_topic`, the name is present and the returned record is the
row found by name. -/
theorem insert_topic_found (s : DBState) (topic : String) :
    ∃ t, (insert_topic s topic).2 = some t ∧ t.topic = topic ∧
      get_topic_by_name (insert_topic s topic).1 topic = some t := by
  have hex : ∃ x ∈ (insert_topic s topic).1.topics, (x.topic == topic) = true := by
    rcases insert_topic_fst_cases s topic with h | h
    · rw [h]
      unfold insert_topic at h
      split at h
      · next hc => rcases List.any_eq_true.mp hc with ⟨x, hx, hp⟩; exact ⟨x, hx, hp⟩
      · next hc =>
          exfalso
          have : s.topics ++ [⟨nextTopicId s, topic⟩] = s.topics := congrArg DBState.topics h
          simpa using congrArg List.length this
    · rw [h]
      exact ⟨⟨nextTopicId s, topic⟩, List.mem_append_right _ (List.mem_singleton.mpr rfl), by simp⟩
  rcases find?_of_exists hex with ⟨t, ht, _, hp⟩
  have h2 : (insert_topic s topic).2 = get_topic_by_name (insert_topic s topic).1 topic := by
    unfold insert_topic
    split <;> rfl
  exact ⟨t, by rw [h2]; exact ht, by simpa using hp, ht⟩

/-- After `insert_speaker`, the name is present and the returned record is
the row found by name. -/
theorem insert_speaker_found (s : DBState) (speaker : String) :
    ∃ k, (insert_speaker s speaker).2 = some k ∧ k.speaker = speaker ∧
      get_speaker_by_name (insert_speaker s speaker).1 speaker = some k := by
  have hex : ∃ x ∈ (insert_speaker s speaker).1.speakers, (x.speaker == speaker) = true := by
    rcases insert_speaker_fst_cases s speaker with h | h
    · rw [h]
      unfold insert_speaker at h
      split at h
      · next hc => rcases List.any_eq_true.mp hc with ⟨x, hx, hp⟩; exact ⟨x, hx, hp⟩
      · next hc =>
          exfalso
          have : s.speakers ++ [⟨nextSpeakerId s, speaker⟩] = s.speakers :=
            congrArg DBState.speakers h
          simpa using congrArg List.length this
    · rw [h]
      exact ⟨⟨nextSpeakerId s, speaker⟩, List.mem_append_right _ (List.mem_singleton.mpr rfl),
        by simp⟩
  rcases find?_of_exists hex with ⟨k, hk, _, hp⟩
  have h2 : (insert_speaker s speaker).2 = get_speaker_by_name (insert_speaker s speaker).1 speaker := by
    unfold insert_speaker
    split <;> rfl
  exact ⟨k, by rw [h2]; exact hk, by simpa using hp, hk⟩

/-! ### Equation lemmas for the two compound inserts -/

theorem insert_review_eq_of_none {s : DBState} {speech_id : Nat} (content : String)
    (hd : get_speech_by_id s speech_id = none) :
    insert_review s content speech_id = (s, Sum.inr 1) := by
  unfold insert_review
  rw [hd]

theorem insert_review_eq_of_some {s : DBState} {speech_id : Nat} {d : SpeechDict}
    (content : String) (hd : get_speech_by_id s speech_id = some d) :
    insert_review s content speech_id =
      ({ s with reviews := s.reviews ++ [⟨nextReviewId s, content, d.speech_id⟩] },
       Sum.inl (get_review_by_id
         { s with reviews := s.reviews ++ [⟨nextReviewId s, content, d.speech_id⟩] }
         (nextReviewId s))) := by
  unfold insert_review
  rw [hd]

theorem insert_speech_eq {s : DBState} {topic speaker : String} {t : TopicRow}
    {k : SpeakerRow} (title : String) (duration views : Int) (date : String)
    (ht : get_topic_by_name ((insert_speaker (insert_topic s topic).1 speaker).1) topic = some t)
    (hk : get_speaker_by_name ((insert_speaker (insert_topic s topic).1 speaker).1) speaker = some k) :
    insert_speech s title duration views date topic speaker =
      (let s2 := (insert_speaker (insert_topic s topic).1 speaker).1
       let s3 := { s2 with speeches := s2.speeches ++
         [⟨nextSpeechId s2, title, duration, views, date, t.topic_id, k.speaker_id⟩] }
       (s3, get_speech_by_id s3 (nextSpeechId s2))) := by
  unfold insert_speech
  simp only []
  rw [ht, hk]

/-! ### Cascades cover every referencing speech -/

/-- Under integrity, every speech with the given speaker is listed by
`get_speeches_by_speaker`, so `delete_speaker`'s review cascade covers it. -/
theorem covered_by_speaker {s : DBState} (hI : Integrity s) {sp : SpeechRow}
    {speaker_id : Nat} (hsp : sp ∈ s.speeches) (hid : sp.speaker_id = speaker_id) :
    (get_speeches_by_speaker s speaker_id).any (fun d => d.speech_id == sp.speech_id) = true := by
  rcases joinSpeech_of_integrity hI hsp with ⟨d, hd, hdid⟩
  refine List.any_eq_true.mpr ⟨d, ?_, by simp [hdid]⟩
  exact List.mem_filterMap.mpr ⟨sp, List.mem_filter.mpr ⟨hsp, by simp [hid]⟩, hd⟩

/-- Under integrity, every speech with the given topic is listed by
`get_speeches_by_topic`, so `delete_topic`'s review cascade covers it. -/
theorem covered_by_topic {s : DBState} (hI : Integrity s) {sp : SpeechRow}
    {topic_id : Nat} (hsp : sp ∈ s.speeches) (hid : sp.topic_id = topic_id) :
    (get_speeches_by_topic s topic_id).any (fun d => d.speech_id == sp.speech_id) = true := by
  rcases joinSpeech_of_integrity hI hsp with ⟨d, hd, hdid⟩
  refine List.any_eq_true.mpr ⟨d, ?_, by simp [hdid]⟩
  exact List.mem_filterMap.mpr ⟨sp, List.mem_filter.mpr ⟨hsp, by simp [hid]⟩, hd⟩

/-! ### Preservation of the store invariant -/

theorem wf_insert_speaker {s : DBState} (h : Wf s) (speaker : String) :
    Wf (insert_speaker s speaker).1 := by
  rcases insert_speaker_fst_cases s speaker with hc | hc
  · rw [hc]; exact h
  · rw [hc]
    obtain ⟨⟨hIr, hIs⟩, hP1, hP2, hP3, hP4⟩ := h
    refine ⟨⟨hIr, ?_⟩, ?_, hP2, hP3, hP4⟩
    · intro sp hsp
      rcases hIs sp hsp with ⟨hT, ⟨k, hk, hkid⟩⟩
      exact ⟨hT, ⟨k, List.mem_append_left _ hk, hkid⟩⟩
    · refine List.pairwise_append.mpr ⟨hP1, List.pairwise_singleton _ _, ?_⟩
      intro a ha b hb
      rw [List.mem_singleton.mp hb]
      exact lt_nextId (List.mem_map_of_mem _ ha)

theorem wf_insert_topic {s : DBState} (h : Wf s) (topic : String) :
    Wf (insert_topic s topic).1 := by
  rcases insert_topic_fst_cases s topic with hc | hc
  · rw [hc]; exact h
  · rw [hc]
    obtain ⟨⟨hIr, hIs⟩, hP1, hP2, hP3, hP4⟩ := h
    refine ⟨⟨hIr, ?_⟩, hP1, ?_, hP3, hP4⟩
    · intro sp hsp
      rcases hIs sp hsp with ⟨⟨t, ht, htid⟩, hK⟩
      exact ⟨⟨t, List.mem_append_left _ ht, htid⟩, hK⟩
    · refine List.pairwise_append.mpr ⟨hP2, List.pairwise_singleton _ _, ?_⟩
      intro a ha b hb
      rw [List.mem_singleton.mp hb]
      exact lt_nextId (List.mem_map_of_mem _ ha)

theorem wf_insert_speech {s : DBState} (h : Wf s) (title : String) (duration views : Int)
    (date topic speaker : String) :
    Wf (insert_speech s title duration views date topic speaker).1 := by
  have h2 : Wf ((insert_speaker (insert_topic s topic).1 speaker).1) :=
    wf_insert_speaker (wf_insert_topic h topic) speaker
  rcases insert_topic_found s topic with ⟨t, _, _, htn⟩
  have htn2 : get_topic_by_name ((insert_speaker (insert_topic s topic).1 speaker).1) topic
      = some t := by
    unfold get_topic_by_name at htn ⊢
    rw [insert_speaker_topics]
    exact htn
  rcases insert_speaker_found (insert_topic s topic).1 speaker with ⟨k, _, _, hkn⟩
  rw [insert_speech_eq title duration views date htn2 hkn]
  obtain ⟨⟨hIr, hIs⟩, hP1, hP2, hP3, hP4⟩ := h2
  have htm : t ∈ ((insert_speaker (insert_topic s topic).1 speaker).1).topics :=
    List.mem_of_find?_eq_some htn2
  have hkm : k ∈ ((insert_speaker (insert_topic s topic).1 speaker).1).speakers :=
    List.mem_of_find?_eq_some hkn
  refine ⟨⟨?_, ?_⟩, hP1, hP2, ?_, hP4⟩
  · intro r hr
    rcases hIr r hr with ⟨sp, hsp, hspid⟩
    exact ⟨sp, List.mem_append_left _ hsp, hspid⟩
  · intro sp hsp
    rcases List.mem_append.mp hsp with hsp | hsp
    · exact hIs sp hsp
    · rw [List.mem_singleton.mp hsp]
      exact ⟨⟨t, htm, rfl⟩, ⟨k, hkm, rfl⟩⟩
  · refine List.pairwise_append.mpr ⟨hP3, List.pairwise_singleton _ _, ?_⟩
    intro a ha b hb
    rw [List.mem_singleton.mp hb]
    exact lt_nextId (List.mem_map_of_mem _ ha)

theorem wf_insert_review {s : DBState} (h : Wf s) (content : String) (speech_id : Nat) :
    Wf (insert_review s content speech_id).1 := by
  cases hd : get_speech_by_id s speech_id with
  | none => rw [insert_review_eq_of_none content hd]; exact h
  | some d =>
      rw [insert_review_eq_of_some content hd]
      rcases get_speech_by_id_inv hd with ⟨row, _, hmem, _, hdid⟩
      obtain ⟨⟨hIr, hIs⟩, hP1, hP2, hP3, hP4⟩ := h
      refine ⟨⟨?_, hIs⟩, hP1, hP2, hP3, ?_⟩
      · intro r hr
        rcases List.mem_append.mp hr with hr | hr
        · exact hIr r hr
        · rw [List.mem_singleton.mp hr]
          exact ⟨row, hmem, hdid.symm⟩
      · refine List.pairwise_append.mpr ⟨hP4, List.pairwise_singleton _ _, ?_⟩
        intro a ha b hb
        rw [List.mem_singleton.mp hb]
        exact lt_nextId (List.mem_map_of_mem _ ha)

theorem wf_delete_review {s : DBState} (h : Wf s) (review_id : Nat) :
    Wf (delete_review s review_id) := by
  obtain ⟨⟨hIr, hIs⟩, hP1, hP2, hP3, hP4⟩ := h
  exact ⟨⟨fun r hr => hIr r (List.mem_filter.mp hr).1, hIs⟩,
    hP1, hP2, hP3, List.Pairwise.sublist (List.filter_sublist _) hP4⟩

theorem wf_delete_speech {s : DBState} (h : Wf s) (speech_id : Nat) :
    Wf (delete_speech s speech_id) := by
  obtain ⟨⟨hIr, hIs⟩, hP1, hP2, hP3, hP4⟩ := h
  refine ⟨⟨?_, ?_⟩, hP1, hP2,
    List.Pairwise.sublist (List.filter_sublist _) hP3,
    List.Pairwise.sublist (List.filter_sublist _) hP4⟩
  · intro r hr
    have hr' := List.mem_filter.mp hr
    rcases hIr r hr'.1 with ⟨sp, hsp, hspid⟩
    have hne : r.speech_id ≠ speech_id := bne_iff_ne.mp hr'.2
    refine ⟨sp, List.mem_filter.mpr ⟨hsp, ?_⟩, hspid⟩
    exact bne_iff_ne.mpr (by rw [hspid]; exact hne)
  · intro sp hsp
    exact hIs sp (List.mem_filter.mp hsp).1

theorem wf_delete_speaker {s : DBState} (h : Wf s) (speaker_id : Nat) :
    Wf (delete_speaker s speaker_id) := by
  obtain ⟨⟨hIr, hIs⟩, hP1, hP2, hP3, hP4⟩ := h
  refine ⟨⟨?_, ?_⟩, List.Pairwise.sublist (List.filter_sublist _) hP1, hP2,
    List.Pairwise.sublist (List.filter_sublist _) hP3,
    List.Pairwise.sublist (List.filter_sublist _) hP4⟩
  · intro r hr
    have hr' := List.mem_filter.mp hr
    rcases hIr r hr'.1 with ⟨sp, hsp, hspid⟩
    have hne : sp.speaker_id ≠ speaker_id := by
      intro heq
      have hc := covered_by_speaker ⟨hIr, hIs⟩ hsp heq
      rw [hspid] at hc
      have h2 := hr'.2
      rw [Bool.not_eq_true'] at h2
      rw [hc] at h2
      cases h2
    refine ⟨sp, List.mem_filter.mpr ⟨hsp, bne_iff_ne.mpr hne⟩, hspid⟩
  · intro sp hsp
    have hsp' := List.mem_filter.mp hsp
    rcases hIs sp hsp'.1 with ⟨hT, ⟨k, hk, hkid⟩⟩
    have hne : sp.speaker_id ≠ speaker_id := bne_iff_ne.mp hsp'.2
    refine ⟨hT, ⟨k, List.mem_filter.mpr ⟨hk, bne_iff_ne.mpr (by rw [hkid]; exact hne)⟩, hkid⟩⟩

theorem wf_delete_topic {s : DBState} (h : Wf s) (topic_id : Nat) :
    Wf (delete_topic s topic_id) := by
  obtain ⟨⟨hIr, hIs⟩, hP1, hP2, hP3, hP4⟩ := h
  refine ⟨⟨?_, ?_⟩, hP1, List.Pairwise.sublist (List.filter_sublist _) hP2,
    List.Pairwise.sublist (List.filter_sublist _) hP3,
    List.Pairwise.sublist (List.filter_sublist _) hP4⟩
  · intro r hr
    have hr' := List.mem_filter.mp hr
    rcases hIr r hr'.1 with ⟨sp, hsp, hspid⟩
    have hne : sp.topic_id ≠ topic_id := by
      intro heq
      have hc := covered_by_topic ⟨hIr, hIs⟩ hsp heq
      rw [hspid] at hc
      have h2 := hr'.2
      rw [Bool.not_eq_true'] at h2
      rw [hc] at h2
      cases h2
    refine ⟨sp, List.mem_filter.mpr ⟨hsp, bne_iff_ne.mpr hne⟩, hspid⟩
  · intro sp hsp
    have hsp' := List.mem_filter.mp hsp
    rcases hIs sp hsp'.1 with ⟨⟨t, ht, htid⟩, hK⟩
    have hne : sp.topic_id ≠ topic_id := bne_iff_ne.mp hsp'.2
    refine ⟨⟨t, List.mem_filter.mpr ⟨ht, bne_iff_ne.mpr (by rw [htid]; exact hne)⟩, htid⟩, hK⟩

theorem wf_applyOp {s : DBState} (h : Wf s) (op : Op) : Wf (applyOp s op) := by
  cases op with
  | insertSpeaker speaker => exact wf_insert_speaker h speaker
  | insertTopic topic => exact wf_insert_topic h topic
  | insertSpeech title duration views date topic speaker =>
      exact wf_insert_speech h title duration views date topic speaker
  | insertReview content speech_id => exact wf_insert_review h content speech_id
  | deleteSpeaker speaker_id => exact wf_delete_speaker h speaker_id
  | deleteTopic topic_id => exact wf_delete_topic h topic_id
  | deleteSpeech speech_id => exact wf_delete_speech h speech_id
  | deleteReview review_id => exact wf_delete_review h review_id

theorem wf_foldl {s : DBState} (h : Wf s) :
    ∀ ops : List Op, Wf (ops.foldl applyOp s)
  | [] => h
  | op :: ops => wf_foldl (wf_applyOp h op) ops

theorem wf_emptyDB : Wf emptyDB := by
  refine ⟨⟨?_, ?_⟩, ?_, ?_, ?_, ?_⟩ <;> simp [emptyDB]

theorem wf_runOps (ops : List Op) : Wf (runOps ops) := wf_foldl wf_emptyDB ops

theorem reachable_wf {s : DBState} (h : Reachable s) : Wf s := by
  rcases h with ⟨ops, hops⟩
  rw [← hops]
  exact wf_runOps ops

/-! ### Computing the result of insert_speech -/

theorem joinSpeech_eq_of_finds {s : DBState} {sp : SpeechRow} {t : TopicRow} {k : SpeakerRow}
    (ht : s.topics.find? (fun x => x.topic_id == sp.topic_id) = some t)
    (hk : s.speakers.find? (fun x => x.speaker_id == sp.speaker_id) = some k) :
    joinSpeech s sp = some ⟨sp.speech_id, sp.title, sp.duration, sp.views, sp.date,
      t.topic, t.topic_id, k.speaker, k.speaker_id⟩ := by
  unfold joinSpeech
  rw [ht, hk]

/-- Looking the freshly inserted speech row up by its (fresh) id joins it with
exactly the resolved topic and speaker rows. -/
theorem insert_speech_core {s2 : DBState} (h2 : Wf s2) {t : TopicRow} {k : SpeakerRow}
    (htm : t ∈ s2.topics) (hkm : k ∈ s2.speakers) (title : String)
    (duration views : Int) (date : String) :
    get_speech_by_id
      { s2 with speeches := s2.speeches ++
        [⟨nextSpeechId s2, title, duration, views, date, t.topic_id, k.speaker_id⟩] }
      (nextSpeechId s2) =
    some ⟨nextSpeechId s2, title, duration, views, date, t.topic, t.topic_id,
          k.speaker, k.speaker_id⟩ := by
  have hnone : s2.speeches.find? (fun sp => sp.speech_id == nextSpeechId s2) = none := by
    rw [List.find?_eq_none]
    intro sp hsp
    simp only [beq_iff_eq]
    exact Nat.ne_of_lt (lt_nextId (List.mem_map_of_mem _ hsp))
  have hfind : (s2.speeches ++
      [(⟨nextSpeechId s2, title, duration, views, date, t.topic_id, k.speaker_id⟩ : SpeechRow)]).find?
        (fun sp => sp.speech_id == nextSpeechId s2) =
      some ⟨nextSpeechId s2, title, duration, views, date, t.topic_id, k.speaker_id⟩ := by
    rw [find?_append_of_none hnone]
    simp [List.find?]
  have hj : joinSpeech
      { s2 with speeches := s2.speeches ++
        [⟨nextSpeechId s2, title, duration, views, date, t.topic_id, k.speaker_id⟩] }
      ⟨nextSpeechId s2, title, duration, views, date, t.topic_id, k.speaker_id⟩ =
      some ⟨nextSpeechId s2, title, duration, views, date, t.topic, t.topic_id,
            k.speaker, k.speaker_id⟩ := by
    exact joinSpeech_eq_of_finds
      (find?_key_of_nodup (nodup_map_of_pairwise_lt h2.2.2.1) htm)
      (find?_key_of_nodup (nodup_map_of_pairwise_lt h2.2.1) hkm)
  have hrw : get_speech_by_id
      { s2 with speeches := s2.speeches ++
        [⟨nextSpeechId s2, title, duration, views, date, t.topic_id, k.speaker_id⟩] }
      (nextSpeechId s2) =
      ((s2.speeches ++
        [(⟨nextSpeechId s2, title, duration, views, date, t.topic_id, k.speaker_id⟩ : SpeechRow)]).find?
          (fun sp => sp.speech_id == nextSpeechId s2)).bind
        (joinSpeech { s2 with speeches := s2.speeches ++
          [⟨nextSpeechId s2, title, duration, views, date, t.topic_id, k.speaker_id⟩] }) := rfl
  rw [hrw, hfind]
  exact hj

/-- Appending the fresh speech row appends exactly one joined record to
`get_all_speeches`. -/
theorem get_all_speeches_core {s2 : DBState} (h2 : Wf s2) {t : TopicRow} {k : SpeakerRow}
    (htm : t ∈ s2.topics) (hkm : k ∈ s2.speakers) (title : String)
    (duration views : Int) (date : String) :
    get_all_speeches
      { s2 with speeches := s2.speeches ++
        [⟨nextSpeechId s2, title, duration, views, date, t.topic_id, k.speaker_id⟩] } =
    get_all_speeches s2 ++
      [⟨nextSpeechId s2, title, duration, views, date, t.topic, t.topic_id,
        k.speaker, k.speaker_id⟩] := by
  have hj : joinSpeech
      { s2 with speeches := s2.speeches ++
        [⟨nextSpeechId s2, title, duration, views, date, t.topic_id, k.speaker_id⟩] }
      ⟨nextSpeechId s2, title, duration, views, date, t.topic_id, k.speaker_id⟩ =
      some ⟨nextSpeechId s2, title, duration, views, date, t.topic, t.topic_id,
            k.speaker, k.speaker_id⟩ :=
    joinSpeech_eq_of_finds
      (find?_key_of_nodup (nodup_map_of_pairwise_lt h2.2.2.1) htm)
      (find?_key_of_nodup (nodup_map_of_pairwise_lt h2.2.1) hkm)
  have hrw : get_all_speeches
      { s2 with speeches := s2.speeches ++
        [⟨nextSpeechId s2, title, duration, views, date, t.topic_id, k.speaker_id⟩] } =
      (s2.speeches ++
        [(⟨nextSpeechId s2, title, duration, views, date, t.topic_id, k.speaker_id⟩ : SpeechRow)]).filterMap
        (joinSpeech { s2 with speeches := s2.speeches ++
          [⟨nextSpeechId s2, title, duration, views, date, t.topic_id, k.speaker_id⟩] }) := rfl
  rw [hrw, List.filterMap_append]
  congr 1
  simp [List.filterMap, hj]

/-- The two upserts performed by `insert_speech` do not change the joined
speech listing. -/
theorem get_all_speeches_upserts {s : DBState} (hI : Integrity s) (topic speaker : String) :
    get_all_speeches ((insert_speaker (insert_topic s topic).1 speaker).1) =
      get_all_speeches s := by
  unfold get_all_speeches
  rw [insert_speaker_speeches, insert_topic_speeches]
  apply List.filterMap_congr
  intro sp hsp
  apply joinSpeech_extend hI hsp
  · rw [insert_speaker_topics]
    exact insert_topic_topics_cases s topic
  · rcases insert_speaker_speakers_cases (insert_topic s topic).1 speaker with hc | ⟨x, hc⟩
    · rw [hc, insert_topic_speakers]
      exact Or.inl rfl
    · rw [hc, insert_topic_speakers]
      exact Or.inr ⟨x, rfl⟩

/-- Full characterisation of `insert_speech` on a well-formed store: the
topic and speaker rows it resolves, the final state and the returned joined
record. -/
theorem insert_speech_result {s : DBState} (h : Wf s) (title : String)
    (duration views : Int) (date topic speaker : String) :
    ∃ t k, t.topic = topic ∧ k.speaker = speaker ∧
      t ∈ ((insert_speaker (insert_topic s topic).1 speaker).1).topics ∧
      k ∈ ((insert_speaker (insert_topic s topic).1 speaker).1).speakers ∧
      insert_speech s title duration views date topic speaker =
        ({ (insert_speaker (insert_topic s topic).1 speaker).1 with
            speeches := ((insert_speaker (insert_topic s topic).1 speaker).1).speeches ++
              [⟨nextSpeechId ((insert_speaker (insert_topic s topic).1 speaker).1),
                title, duration, views, date, t.topic_id, k.speaker_id⟩] },
         some ⟨nextSpeechId ((insert_speaker (insert_topic s topic).1 speaker).1),
               title, duration, views, date, t.topic, t.topic_id, k.speaker, k.speaker_id⟩) := by
  have h2 : Wf ((insert_speaker (insert_topic s topic).1 speaker).1) :=
    wf_insert_speaker (wf_insert_topic h topic) speaker
  rcases insert_topic_found s topic with ⟨t, _, htname, htn⟩
  have htn2 : get_topic_by_name ((insert_speaker (insert_topic s topic).1 speaker).1) topic
      = some t := by
    unfold get_topic_by_name at htn ⊢
    rw [insert_speaker_topics]
    exact htn
  rcases insert_speaker_found (insert_topic s topic).1 speaker with ⟨k, _, hkname, hkn⟩
  have htm : t ∈ ((insert_speaker (insert_topic s topic).1 speaker).1).topics :=
    List.mem_of_find?_eq_some htn2
  have hkm : k ∈ ((insert_speaker (insert_topic s topic).1 speaker).1).speakers :=
    List.mem_of_find?_eq_some hkn
  refine ⟨t, k, htname, hkname, htm, hkm, ?_⟩
  rw [insert_speech_eq title duration views date htn2 hkn]
  simp only []
  rw [insert_speech_core h2 htm hkm title duration views date]

/-! ### Projection lemmas for the delete operations -/

theorem delete_speaker_speakers (s : DBState) (speaker_id : Nat) :
    (delete_speaker s speaker_id).speakers =
      s.speakers.filter (fun k => k.speaker_id != speaker_id) := rfl

theorem delete_speaker_speeches (s : DBState) (speaker_id : Nat) :
    (delete_speaker s speaker_id).speeches =
      s.speeches.filter (fun sp => sp.speaker_id != speaker_id) := rfl

theorem delete_speaker_reviews (s : DBState) (speaker_id : Nat) :
    (delete_speaker s speaker_id).reviews =
      s.reviews.filter (fun r =>
        !((get_speeches_by_speaker s speaker_id).any (fun d => d.speech_id == r.speech_id))) := rfl

theorem delete_topic_topics (s : DBState) (topic_id : Nat) :
    (delete_topic s topic_id).topics =
      s.topics.filter (fun t => t.topic_id != topic_id) := rfl

theorem delete_topic_speeches (s : DBState) (topic_id : Nat) :
    (delete_topic s topic_id).speeches =
      s.speeches.filter (fun sp => sp.topic_id != topic_id) := rfl

theorem delete_topic_reviews (s : DBState) (topic_id : Nat) :
    (delete_topic s topic_id).reviews =
      s.reviews.filter (fun r =>
        !((get_speeches_by_topic s topic_id).any (fun d => d.speech_id == r.speech_id))) := rfl

theorem delete_speech_speeches (s : DBState) (speech_id : Nat) :
    (delete_speech s speech_id).speeches =
      s.speeches.filter (fun sp => sp.speech_id != speech_id) := rfl

theorem delete_speech_reviews (s : DBState) (speech_id : Nat) :
    (delete_speech s speech_id).reviews =
      s.reviews.filter (fun r => r.speech_id != speech_id) := rfl

theorem insert_speaker_snd (s : DBState) (speaker : String) :
    (insert_speaker s speaker).2 =
      get_speaker_by_name (insert_speaker s speaker).1 speaker := by
  unfold insert_speaker
  split <;> rfl

theorem insert_topic_snd (s : DBState) (topic : String) :
    (insert_topic s topic).2 =
      get_topic_by_name (insert_topic s topic).1 topic := by
  unfold insert_topic
  split <;> rfl

/-! ### The claims -/

/-- C1: for every `speech_id` that matches no existing speech,
`insert_review` leaves the store unchanged (no review row is added) and
returns the integrity-failure sentinel `1`, which is distinguishable from
every successful review result (`Sum.inl (some _)`) and is not conflated
with the absent marker (`Sum.inl none`). -/
theorem claim_C1 (s : DBState) (content : String) (speech_id : Nat)
    (h : ∀ sp ∈ s.speeches, sp.speech_id ≠ speech_id) :
    insert_review s content speech_id = (s, Sum.inr 1) ∧
    (∀ d : ReviewDict, (insert_review s content speech_id).2 ≠ Sum.inl (some d)) ∧
    (insert_review s content speech_id).2 ≠ Sum.inl none := by
  have hfind : s.speeches.find? (fun sp => sp.speech_id == speech_id) = none := by
    rw [List.find?_eq_none]
    intro sp hsp
    simp only [beq_iff_eq]
    exact h sp hsp
  have hnone : get_speech_by_id s speech_id = none := by
    unfold get_speech_by_id
    rw [hfind]
    rfl
  have heq := insert_review_eq_of_none content hnone
  refine ⟨heq, ?_, ?_⟩ <;> rw [heq] <;> simp

/-- C1 witness: at the fresh store, inserting a review for speech 1 fails
with the sentinel and adds nothing. -/
theorem claim_C1_witness :
    insert_review emptyDB "great" 1 = (emptyDB, Sum.inr 1) ∧
    (∀ d : ReviewDict, (insert_review emptyDB "great" 1).2 ≠ Sum.inl (some d)) ∧
    (insert_review emptyDB "great" 1).2 ≠ Sum.inl none :=
  claim_C1 emptyDB "great" 1 (by decide)

/-- C7: every get-by-id and get-by-name lookup returns the absent marker
`none` (not an error) when no row matches, and this marker is distinct from
`insert_review`'s integrity-failure result `Sum.inr 1`. -/
theorem claim_C7 (s : DBState) (id : Nat) (name content : String) :
    ((∀ r ∈ s.speakers, r.speaker_id ≠ id) → get_speaker_by_id s id = none) ∧
    ((∀ r ∈ s.speakers, r.speaker ≠ name) → get_speaker_by_name s name = none) ∧
    ((∀ t ∈ s.topics, t.topic_id ≠ id) → get_topic_by_id s id = none) ∧
    ((∀ t ∈ s.topics, t.topic ≠ name) → get_topic_by_name s name = none) ∧
    ((∀ sp ∈ s.speeches, sp.speech_id ≠ id) → get_speech_by_id s id = none) ∧
    ((∀ r ∈ s.reviews, r.review_id ≠ id) → get_review_by_id s id = none) ∧
    ((∀ r ∈ s.reviews, r.review_id ≠ id) → (∀ sp ∈ s.speeches, sp.speech_id ≠ id) →
      (Sum.inl (get_review_by_id s id) : Option ReviewDict ⊕ Nat) ≠
        (insert_review s content id).2) := by
  have hspeaker : (∀ r ∈ s.speakers, r.speaker_id ≠ id) → get_speaker_by_id s id = none := by
    intro h
    unfold get_speaker_by_id
    rw [List.find?_eq_none]
    intro r hr
    simp only [beq_iff_eq]
    exact h r hr
  have hspeakername : (∀ r ∈ s.speakers, r.speaker ≠ name) →
      get_speaker_by_name s name = none := by
    intro h
    unfold get_speaker_by_name
    rw [List.find?_eq_none]
    intro r hr
    simp only [beq_iff_eq]
    exact h r hr
  have htopic : (∀ t ∈ s.topics, t.topic_id ≠ id) → get_topic_by_id s id = none := by
    intro h
    unfold get_topic_by_id
    rw [List.find?_eq_none]
    intro r hr
    simp only [beq_iff_eq]
    exact h r hr
  have htopicname : (∀ t ∈ s.topics, t.topic ≠ name) → get_topic_by_name s name = none := by
    intro h
    unfold get_topic_by_name
    rw [List.find?_eq_none]
    intro r hr
    simp only [beq_iff_eq]
    exact h r hr
  have hspeech : (∀ sp ∈ s.speeches, sp.speech_id ≠ id) → get_speech_by_id s id = none := by
    intro h
    unfold get_speech_by_id
    rw [List.find?_eq_none.mpr]
    · rfl
    · intro sp hsp
      simp only [beq_iff_eq]
      exact h sp hsp
  have hreview : (∀ r ∈ s.reviews, r.review_id ≠ id) → get_review_by_id s id = none := by
    intro h
    unfold get_review_by_id
    rw [List.find?_eq_none.mpr]
    · rfl
    · intro r hr
      simp only [beq_iff_eq]
      exact h r hr
  refine ⟨hspeaker, hspeakername, htopic, htopicname, hspeech, hreview, ?_⟩
  intro h1 h2
  rw [hreview h1, insert_review_eq_of_none content (hspeech h2)]
  simp

/-- C7 witness: at the fresh store, every lookup with id 1 or name "x" is
absent, and the absent marker differs from the integrity sentinel. -/
theorem claim_C7_witness :
    get_speaker_by_id emptyDB 1 = none ∧
    get_speaker_by_name emptyDB "x" = none ∧
    get_topic_by_id emptyDB 1 = none ∧
    get_topic_by_name emptyDB "x" = none ∧
    get_speech_by_id emptyDB 1 = none ∧
    get_review_by_id emptyDB 1 = none ∧
    (Sum.inl (get_review_by_id emptyDB 1) : Option ReviewDict ⊕ Nat) ≠
      (insert_review emptyDB "c" 1).2 := by
  obtain ⟨h1, h2, h3, h4, h5, h6, h7⟩ := claim_C7 emptyDB 1 "x" "c"
  exact ⟨h1 (by decide), h2 (by decide), h3 (by decide), h4 (by decide),
    h5 (by decide), h6 (by decide), h7 (by decide) (by decide)⟩

/-- C9: `delete_speech` and `delete_review` never modify the speaker or
topic relations. -/
theorem claim_C9 (s : DBState) (id : Nat) :
    get_all_speakers (delete_speech s id) = get_all_speakers s ∧
    get_all_topics (delete_speech s id) = get_all_topics s ∧
    get_all_speakers (delete_review s id) = get_all_speakers s ∧
    get_all_topics (delete_review s id) = get_all_topics s :=
  ⟨rfl, rfl, rfl, rfl⟩

/-- C10: the filtered sequence queries return the empty sequence (not an
error and not the absent marker) when the given id matches no entity. -/
theorem claim_C10 (s : DBState) (id : Nat) :
    ((∀ sp ∈ s.speeches, sp.speech_id ≠ id) → get_reviews_by_speech s id = []) ∧
    ((∀ k ∈ s.speakers, k.speaker_id ≠ id) → get_speeches_by_speaker s id = []) ∧
    ((∀ t ∈ s.topics, t.topic_id ≠ id) → get_speeches_by_topic s id = []) := by
  refine ⟨?_, ?_, ?_⟩
  · intro h
    unfold get_reviews_by_speech
    rw [List.filterMap_eq_nil_iff]
    intro r hr
    have hrid : r.speech_id = id := by
      have := (List.mem_filter.mp hr).2
      simpa using this
    unfold joinReview
    rw [List.find?_eq_none.mpr]
    · rfl
    · intro sp hsp
      simp only [beq_iff_eq, hrid]
      exact h sp hsp
  · intro h
    unfold get_speeches_by_speaker
    rw [List.filterMap_eq_nil_iff]
    intro sp hsp
    have hid : sp.speaker_id = id := by
      have := (List.mem_filter.mp hsp).2
      simpa using this
    have hk : s.speakers.find? (fun k => k.speaker_id == sp.speaker_id) = none := by
      rw [List.find?_eq_none]
      intro k hkm
      simp only [beq_iff_eq, hid]
      exact h k hkm
    unfold joinSpeech
    rw [hk]
    cases s.topics.find? (fun t => t.topic_id == sp.topic_id) <;> rfl
  · intro h
    unfold get_speeches_by_topic
    rw [List.filterMap_eq_nil_iff]
    intro sp hsp
    have hid : sp.topic_id = id := by
      have := (List.mem_filter.mp hsp).2
      simpa using this
    have ht : s.topics.find? (fun t => t.topic_id == sp.topic_id) = none := by
      rw [List.find?_eq_none]
      intro t htm
      simp only [beq_iff_eq, hid]
      exact h t htm
    unfold joinSpeech
    rw [ht]

/-- C10 witness: at the fresh store, the three filtered queries with id 1
return the empty sequence. -/
theorem claim_C10_witness :
    get_reviews_by_speech emptyDB 1 = [] ∧
    get_speeches_by_speaker emptyDB 1 = [] ∧
    get_speeches_by_topic emptyDB 1 = [] := by
  obtain ⟨h1, h2, h3⟩ := claim_C10 emptyDB 1
  exact ⟨h1 (by decide), h2 (by decide), h3 (by decide)⟩

theorem insert_speaker_of_any {s : DBState} {name : String}
    (hany : s.speakers.any (fun x => x.speaker == name) = true) :
    insert_speaker s name = (s, get_speaker_by_name s name) := by
  unfold insert_speaker
  rw [if_pos hany]

theorem insert_topic_of_any {s : DBState} {name : String}
    (hany : s.topics.any (fun x => x.topic == name) = true) :
    insert_topic s name = (s, get_topic_by_name s name) := by
  unfold insert_topic
  rw [if_pos hany]

/-- C3: inserting an already-present speaker (resp. topic) name leaves the
store unchanged and returns the existing record, and two successive
insertions of the same name return the same record (hence the same id). -/
theorem claim_C3 (s : DBState) (name : String) :
    ((∃ r ∈ s.speakers, r.speaker = name) →
      insert_speaker s name = (s, get_speaker_by_name s name)) ∧
    (insert_speaker (insert_speaker s name).1 name = insert_speaker s name) ∧
    (∃ r, (insert_speaker s name).2 = some r ∧
      (insert_speaker (insert_speaker s name).1 name).2 = some r) ∧
    ((∃ t ∈ s.topics, t.topic = name) →
      insert_topic s name = (s, get_topic_by_name s name)) ∧
    (insert_topic (insert_topic s name).1 name = insert_topic s name) ∧
    (∃ t, (insert_topic s name).2 = some t ∧
      (insert_topic (insert_topic s name).1 name).2 = some t) := by
  have hkdup : (∃ r ∈ s.speakers, r.speaker = name) →
      insert_speaker s name = (s, get_speaker_by_name s name) := by
    intro ⟨r, hr, hname⟩
    have hany : s.speakers.any (fun x => x.speaker == name) = true :=
      List.any_eq_true.mpr ⟨r, hr, by simp [hname]⟩
    exact insert_speaker_of_any hany
  have hkidem : insert_speaker (insert_speaker s name).1 name = insert_speaker s name := by
    rcases insert_speaker_found s name with ⟨k, _, hkname, hkn⟩
    have hany : (insert_speaker s name).1.speakers.any (fun x => x.speaker == name) = true :=
      List.any_eq_true.mpr ⟨k, List.mem_of_find?_eq_some hkn, by simp [hkname]⟩
    calc insert_speaker (insert_speaker s name).1 name
        = ((insert_speaker s name).1,
           get_speaker_by_name (insert_speaker s name).1 name) :=
          insert_speaker_of_any hany
      _ = ((insert_speaker s name).1, (insert_speaker s name).2) := by
          rw [← insert_speaker_snd]
      _ = insert_speaker s name := rfl
  have htdup : (∃ t ∈ s.topics, t.topic = name) →
      insert_topic s name = (s, get_topic_by_name s name) := by
    intro ⟨t, ht, hname⟩
    have hany : s.topics.any (fun x => x.topic == name) = true :=
      List.any_eq_true.mpr ⟨t, ht, by simp [hname]⟩
    exact insert_topic_of_any hany
  have htidem : insert_topic (insert_topic s name).1 name = insert_topic s name := by
    rcases insert_topic_found s name with ⟨t, _, htname, htn⟩
    have hany : (insert_topic s name).1.topics.any (fun x => x.topic == name) = true :=
      List.any_eq_true.mpr ⟨t, List.mem_of_find?_eq_some htn, by simp [htname]⟩
    calc insert_topic (insert_topic s name).1 name
        = ((insert_topic s name).1, get_topic_by_name (insert_topic s name).1 name) :=
          insert_topic_of_any hany
      _ = ((insert_topic s name).1, (insert_topic s name).2) := by
          rw [← insert_topic_snd]
      _ = insert_topic s name := rfl
  refine ⟨hkdup, hkidem, ?_, htdup, htidem, ?_⟩
  · rcases insert_speaker_found s name with ⟨k, hk2, _, _⟩
    exact ⟨k, hk2, by rw [hkidem]; exact hk2⟩
  · rcases insert_topic_found s name with ⟨t, ht2, _, _⟩
    exact ⟨t, ht2, by rw [htidem]; exact ht2⟩

/-- C3 witness: in a store already holding speaker "alice" and topic "art",
re-inserting those names is a no-op returning the existing records. -/
theorem claim_C3_witness :
    insert_speaker ⟨[⟨1, "alice"⟩], [⟨1, "art"⟩], [], []⟩ "alice" =
      (⟨[⟨1, "alice"⟩], [⟨1, "art"⟩], [], []⟩,
       get_speaker_by_name ⟨[⟨1, "alice"⟩], [⟨1, "art"⟩], [], []⟩ "alice") ∧
    insert_topic ⟨[⟨1, "alice"⟩], [⟨1, "art"⟩], [], []⟩ "art" =
      (⟨[⟨1, "alice"⟩], [⟨1, "art"⟩], [], []⟩,
       get_topic_by_name ⟨[⟨1, "alice"⟩], [⟨1, "art"⟩], [], []⟩ "art") := by
  obtain ⟨h1, _, _, h4, _, _⟩ :=
    claim_C3 (⟨[⟨1, "alice"⟩], [⟨1, "art"⟩], [], []⟩ : DBState) "alice"
  obtain ⟨_, _, _, h4', _, _⟩ :=
    claim_C3 (⟨[⟨1, "alice"⟩], [⟨1, "art"⟩], [], []⟩ : DBState) "art"
  exact ⟨h1 ⟨⟨1, "alice"⟩, by decide, rfl⟩, h4' ⟨⟨1, "art"⟩, by decide, rfl⟩⟩

/-- C2: `delete_speaker` removes the speaker, all speeches with that
`speaker_id` and all their reviews; `delete_topic` does the same for its
topic; `delete_speech` removes the speech and its reviews — each observed
through the corresponding lookups. -/
theorem claim_C2 (s : DBState) (h : Wf s) (id : Nat) :
    get_speaker_by_id (delete_speaker s id) id = none ∧
    get_speeches_by_speaker (delete_speaker s id) id = [] ∧
    (∀ sp ∈ s.speeches, sp.speaker_id = id →
      get_reviews_by_speech (delete_speaker s id) sp.speech_id = []) ∧
    get_topic_by_id (delete_topic s id) id = none ∧
    get_speeches_by_topic (delete_topic s id) id = [] ∧
    (∀ sp ∈ s.speeches, sp.topic_id = id →
      get_reviews_by_speech (delete_topic s id) sp.speech_id = []) ∧
    get_speech_by_id (delete_speech s id) id = none ∧
    get_reviews_by_speech (delete_speech s id) id = [] := by
  refine ⟨?_, ?_, ?_, ?_, ?_, ?_, ?_, ?_⟩
  · unfold get_speaker_by_id
    rw [delete_speaker_speakers, List.find?_eq_none]
    intro k hk
    have := (List.mem_filter.mp hk).2
    simpa using bne_iff_ne.mp this
  · unfold get_speeches_by_speaker
    rw [delete_speaker_speeches]
    rw [show (s.speeches.filter (fun sp => sp.speaker_id != id)).filter
          (fun sp => sp.speaker_id == id) = [] from ?_]
    · rfl
    · rw [List.filter_eq_nil_iff]
      intro sp hsp
      have := (List.mem_filter.mp hsp).2
      simpa using bne_iff_ne.mp this
  · intro sp hsp hid
    unfold get_reviews_by_speech
    rw [delete_speaker_reviews]
    rw [show ((s.reviews.filter (fun r =>
          !((get_speeches_by_speaker s id).any (fun d => d.speech_id == r.speech_id)))).filter
          (fun r => r.speech_id == sp.speech_id)) = [] from ?_]
    · rfl
    · rw [List.filter_eq_nil_iff]
      intro r hr
      intro hbeq
      have hr' := List.mem_filter.mp hr
      have hrs : r.speech_id = sp.speech_id := by simpa using hbeq
      have hcov := covered_by_speaker h.1 hsp hid
      have h2 := hr'.2
      rw [Bool.not_eq_true'] at h2
      rw [← hrs] at hcov
      rw [hcov] at h2
      cases h2
  · unfold get_topic_by_id
    rw [delete_topic_topics, List.find?_eq_none]
    intro t ht
    have := (List.mem_filter.mp ht).2
    simpa using bne_iff_ne.mp this
  · unfold get_speeches_by_topic
    rw [delete_topic_speeches]
    rw [show (s.speeches.filter (fun sp => sp.topic_id != id)).filter
          (fun sp => sp.topic_id == id) = [] from ?_]
    · rfl
    · rw [List.filter_eq_nil_iff]
      intro sp hsp
      have := (List.mem_filter.mp hsp).2
      simpa using bne_iff_ne.mp this
  · intro sp hsp hid
    unfold get_reviews_by_speech
    rw [delete_topic_reviews]
    rw [show ((s.reviews.filter (fun r =>
          !((get_speeches_by_topic s id).any (fun d => d.speech_id == r.speech_id)))).filter
          (fun r => r.speech_id == sp.speech_id)) = [] from ?_]
    · rfl
    · rw [List.filter_eq_nil_iff]
      intro r hr
      intro hbeq
      have hr' := List.mem_filter.mp hr
      have hrs : r.speech_id = sp.speech_id := by simpa using hbeq
      have hcov := covered_by_topic h.1 hsp hid
      have h2 := hr'.2
      rw [Bool.not_eq_true'] at h2
      rw [← hrs] at hcov
      rw [hcov] at h2
      cases h2
  · unfold get_speech_by_id
    rw [delete_speech_speeches, List.find?_eq_none.mpr]
    · rfl
    · intro sp hsp
      have := (List.mem_filter.mp hsp).2
      simpa using bne_iff_ne.mp this
  · unfold get_reviews_by_speech
    rw [delete_speech_reviews]
    rw [show (s.reviews.filter (fun r => r.speech_id != id)).filter
          (fun r => r.speech_id == id) = [] from ?_]
    · rfl
    · rw [List.filter_eq_nil_iff]
      intro r hr
      have := (List.mem_filter.mp hr).2
      simpa using bne_iff_ne.mp this

/-- C2 witness: in a store with one speaker, topic, speech and review
(all id 1), each delete makes its cascade targets unobservable. -/
theorem claim_C2_witness :
    get_speaker_by_id
      (delete_speaker ⟨[⟨1, "alice"⟩], [⟨1, "art"⟩], [⟨1, "T", 10, 20, "D", 1, 1⟩],
        [⟨1, "good", 1⟩]⟩ 1) 1 = none ∧
    get_speeches_by_speaker
      (delete_speaker ⟨[⟨1, "alice"⟩], [⟨1, "art"⟩], [⟨1, "T", 10, 20, "D", 1, 1⟩],
        [⟨1, "good", 1⟩]⟩ 1) 1 = [] ∧
    get_reviews_by_speech
      (delete_speaker ⟨[⟨1, "alice"⟩], [⟨1, "art"⟩], [⟨1, "T", 10, 20, "D", 1, 1⟩],
        [⟨1, "good", 1⟩]⟩ 1) 1 = [] ∧
    get_speech_by_id
      (delete_speech ⟨[⟨1, "alice"⟩], [⟨1, "art"⟩], [⟨1, "T", 10, 20, "D", 1, 1⟩],
        [⟨1, "good", 1⟩]⟩ 1) 1 = none ∧
    get_reviews_by_speech
      (delete_speech ⟨[⟨1, "alice"⟩], [⟨1, "art"⟩], [⟨1, "T", 10, 20, "D", 1, 1⟩],
        [⟨1, "good", 1⟩]⟩ 1) 1 = [] := by
  obtain ⟨h1, h2, h3, _, _, _, h7, h8⟩ :=
    claim_C2 (⟨[⟨1, "alice"⟩], [⟨1, "art"⟩], [⟨1, "T", 10, 20, "D", 1, 1⟩],
      [⟨1, "good", 1⟩]⟩ : DBState) (by decide) 1
  exact ⟨h1, h2, h3 ⟨1, "T", 10, 20, "D", 1, 1⟩ (by decide) rfl, h7, h8⟩

/-- C8: referential integrity holds in every store state reachable from the
fresh store through the public interface: every review references an
existing speech and every speech references an existing topic and
speaker. -/
theorem claim_C8 (s : DBState) (h : Reachable s) : Integrity s :=
  (reachable_wf h).1

/-- C8 witness: the state reached by inserting a speech and a review for it
satisfies the integrity invariant. -/
theorem claim_C8_witness :
    Integrity (runOps [Op.insertSpeech "T" 10 20 "D" "art" "alice",
      Op.insertReview "good" 1]) :=
  claim_C8 _ ⟨[Op.insertSpeech "T" 10 20 "D" "art" "alice",
    Op.insertReview "good" 1], rfl⟩

/-- C4: every `insert_speech` on a well-formed store resolves or creates
the named topic and speaker, returns the fully joined record embedding
their names, and `get_speech_by_id` on the new id immediately afterwards
returns the same record. -/
theorem claim_C4 (s : DBState) (h : Wf s) (title : String) (duration views : Int)
    (date topic speaker : String) :
    ∃ d, (insert_speech s title duration views date topic speaker).2 = some d ∧
      get_speech_by_id (insert_speech s title duration views date topic speaker).1 d.speech_id
        = (insert_speech s title duration views date topic speaker).2 ∧
      d.title = title ∧ d.duration = duration ∧ d.views = views ∧ d.date = date ∧
      d.topic = topic ∧ d.speaker = speaker ∧
      (∃ t ∈ (insert_speech s title duration views date topic speaker).1.topics,
        t.topic_id = d.topic_id ∧ t.topic = topic) ∧
      (∃ k ∈ (insert_speech s title duration views date topic speaker).1.speakers,
        k.speaker_id = d.speaker_id ∧ k.speaker = speaker) := by
  have h2 : Wf ((insert_speaker (insert_topic s topic).1 speaker).1) :=
    wf_insert_speaker (wf_insert_topic h topic) speaker
  rcases insert_speech_result h title duration views date topic speaker with
    ⟨t, k, htname, hkname, htm, hkm, heq⟩
  rw [heq]
  refine ⟨_, rfl, ?_, rfl, rfl, rfl, rfl, htname, hkname,
    ⟨t, htm, rfl, htname⟩, ⟨k, hkm, rfl, hkname⟩⟩
  exact insert_speech_core h2 htm hkm title duration views date

/-- C4 witness: inserting a speech into the fresh store returns the joined
record and `get_speech_by_id` agrees with it. -/
theorem claim_C4_witness :
    ∃ d, (insert_speech emptyDB "T" 10 20 "D" "art" "alice").2 = some d ∧
      get_speech_by_id (insert_speech emptyDB "T" 10 20 "D" "art" "alice").1 d.speech_id
        = (insert_speech emptyDB "T" 10 20 "D" "art" "alice").2 ∧
      d.title = "T" ∧ d.duration = 10 ∧ d.views = 20 ∧ d.date = "D" ∧
      d.topic = "art" ∧ d.speaker = "alice" ∧
      (∃ t ∈ (insert_speech emptyDB "T" 10 20 "D" "art" "alice").1.topics,
        t.topic_id = d.topic_id ∧ t.topic = "art") ∧
      (∃ k ∈ (insert_speech emptyDB "T" 10 20 "D" "art" "alice").1.speakers,
        k.speaker_id = d.speaker_id ∧ k.speaker = "alice") :=
  claim_C4 emptyDB (by decide) "T" 10 20 "D" "art" "alice"

/-- C5: `get_all_speeches`, `get_all_speakers` and `get_all_topics` are
empty on the fresh store; each `insert_speech` on a well-formed store
appends exactly its returned record to `get_all_speeches`; and on every
well-formed store all three listings are strictly ascending in id
(insertion order, each record once). -/
theorem claim_C5 :
    get_all_speeches emptyDB = [] ∧
    get_all_speakers emptyDB = [] ∧
    get_all_topics emptyDB = [] ∧
    (∀ s : DBState, Wf s →
      ∀ (title : String) (duration views : Int) (date topic speaker : String),
      ∃ d, (insert_speech s title duration views date topic speaker).2 = some d ∧
        get_all_speeches (insert_speech s title duration views date topic speaker).1 =
          get_all_speeches s ++ [d]) ∧
    (∀ s : DBState, Wf s →
      (get_all_speeches s).Pairwise (fun a b => a.speech_id < b.speech_id) ∧
      (get_all_speakers s).Pairwise (fun a b => a.speaker_id < b.speaker_id) ∧
      (get_all_topics s).Pairwise (fun a b => a.topic_id < b.topic_id)) := by
  refine ⟨rfl, rfl, rfl, ?_, ?_⟩
  · intro s h title duration views date topic speaker
    have h2 : Wf ((insert_speaker (insert_topic s topic).1 speaker).1) :=
      wf_insert_speaker (wf_insert_topic h topic) speaker
    rcases insert_speech_result h title duration views date topic speaker with
      ⟨t, k, _, _, htm, hkm, heq⟩
    rw [heq]
    refine ⟨_, rfl, ?_⟩
    calc get_all_speeches
          { (insert_speaker (insert_topic s topic).1 speaker).1 with
            speeches := ((insert_speaker (insert_topic s topic).1 speaker).1).speeches ++
              [⟨nextSpeechId ((insert_speaker (insert_topic s topic).1 speaker).1),
                title, duration, views, date, t.topic_id, k.speaker_id⟩] }
        = get_all_speeches ((insert_speaker (insert_topic s topic).1 speaker).1) ++
            [⟨nextSpeechId ((insert_speaker (insert_topic s topic).1 speaker).1),
              title, duration, views, date, t.topic, t.topic_id, k.speaker, k.speaker_id⟩] :=
          get_all_speeches_core h2 htm hkm title duration views date
      _ = get_all_speeches s ++
            [⟨nextSpeechId ((insert_speaker (insert_topic s topic).1 speaker).1),
              title, duration, views, date, t.topic, t.topic_id, k.speaker, k.speaker_id⟩] := by
          rw [get_all_speeches_upserts h.1 topic speaker]
  · intro s h
    refine ⟨?_, h.2.1, h.2.2.1⟩
    exact List.Pairwise.filterMap (joinSpeech s)
      (fun a a' hlt b hb b' hb' => by
        rw [joinSpeech_speech_id (Option.mem_def.mp hb),
          joinSpeech_speech_id (Option.mem_def.mp hb')]
        exact hlt)
      h.2.2.2.1

/-- C5 witness: inserting a speech into the fresh store appends exactly one
record to `get_all_speeches`. -/
theorem claim_C5_witness :
    ∃ d, (insert_speech emptyDB "T" 10 20 "D" "art" "alice").2 = some d ∧
      get_all_speeches (insert_speech emptyDB "T" 10 20 "D" "art" "alice").1 =
        get_all_speeches emptyDB ++ [d] :=
  claim_C5.2.2.2.1 emptyDB (by decide) "T" 10 20 "D" "art" "alice"

/-- C6 counterexample: speaker ids ARE reused after the row holding the
largest id is deleted (SQLite `INTEGER PRIMARY KEY` without `AUTOINCREMENT`
assigns max-in-use + 1): "bob" receives id 2; after `delete_speaker 2`, a
later-created speaker "carol" receives id 2 again. -/
theorem claim_C6_counterexample :
    (insert_speaker (insert_speaker emptyDB "alice").1 "bob").2 = some ⟨2, "bob"⟩ ∧
    (insert_speaker
        (delete_speaker (insert_speaker (insert_speaker emptyDB "alice").1 "bob").1 2)
        "carol").2 = some ⟨2, "carol"⟩ := by
  exact ⟨by decide, by decide⟩

/-- C6 (amended): within each entity, each newly created row receives an id
strictly greater than every id present in its table at creation time
(one more than the largest id in use), so ids increase monotonically and
are never reused while the row holding the largest id remains; deleting
that row, however, frees its id for reassignment (see the
counterexample). -/
theorem claim_C6 (s : DBState) (name content title date topic speaker : String)
    (duration views : Int) (speech_id : Nat) :
    ((∀ r ∈ s.speakers, r.speaker ≠ name) →
      ∃ r', (insert_speaker s name).2 = some r' ∧
        ∀ r ∈ s.speakers, r.speaker_id < r'.speaker_id) ∧
    ((∀ t ∈ s.topics, t.topic ≠ name) →
      ∃ t', (insert_topic s name).2 = some t' ∧
        ∀ t ∈ s.topics, t.topic_id < t'.topic_id) ∧
    (Wf s →
      ∃ d, (insert_speech s title duration views date topic speaker).2 = some d ∧
        ∀ sp ∈ s.speeches, sp.speech_id < d.speech_id) ∧
    (∀ d0, get_speech_by_id s speech_id = some d0 →
      ∃ rv, (insert_review s content speech_id).2 = Sum.inl (some rv) ∧
        ∀ r ∈ s.reviews, r.review_id < rv.review_id) := by
  refine ⟨?_, ?_, ?_, ?_⟩
  · intro hfresh
    have hany : s.speakers.any (fun r => r.speaker == name) = false := by
      rw [List.any_eq_false]
      intro r hr
      simp only [beq_iff_eq]
      exact hfresh r hr
    have hnone : s.speakers.find? (fun r => r.speaker == name) = none := by
      rw [List.find?_eq_none]
      intro r hr
      simp only [beq_iff_eq]
      exact hfresh r hr
    have heq : insert_speaker s name =
        ({ s with speakers := s.speakers ++ [⟨nextSpeakerId s, name⟩] },
         get_speaker_by_name
           { s with speakers := s.speakers ++ [⟨nextSpeakerId s, name⟩] } name) := by
      unfold insert_speaker
      rw [if_neg]
      rw [hany]
      simp
    have hget : get_speaker_by_name
        { s with speakers := s.speakers ++ [⟨nextSpeakerId s, name⟩] } name =
        some ⟨nextSpeakerId s, name⟩ := by
      show (s.speakers ++ [(⟨nextSpeakerId s, name⟩ : SpeakerRow)]).find?
        (fun r => r.speaker == name) = some ⟨nextSpeakerId s, name⟩
      rw [find?_append_of_none hnone]
      simp [List.find?]
    refine ⟨⟨nextSpeakerId s, name⟩, ?_, ?_⟩
    · rw [heq]
      exact hget
    · intro r hr
      exact lt_nextId (List.mem_map_of_mem _ hr)
  · intro hfresh
    have hany : s.topics.any (fun r => r.topic == name) = false := by
      rw [List.any_eq_false]
      intro r hr
      simp only [beq_iff_eq]
      exact hfresh r hr
    have hnone : s.topics.find? (fun r => r.topic == name) = none := by
      rw [List.find?_eq_none]
      intro r hr
      simp only [beq_iff_eq]
      exact hfresh r hr
    have heq : insert_topic s name =
        ({ s with topics := s.topics ++ [⟨nextTopicId s, name⟩] },
         get_topic_by_name { s with topics := s.topics ++ [⟨nextTopicId s, name⟩] } name) := by
      unfold insert_topic
      rw [if_neg]
      rw [hany]
      simp
    have hget : get_topic_by_name
        { s with topics := s.topics ++ [⟨nextTopicId s, name⟩] } name =
        some ⟨nextTopicId s, name⟩ := by
      show (s.topics ++ [(⟨nextTopicId s, name⟩ : TopicRow)]).find?
        (fun r => r.topic == name) = some ⟨nextTopicId s, name⟩
      rw [find?_append_of_none hnone]
      simp [List.find?]
    refine ⟨⟨nextTopicId s, name⟩, ?_, ?_⟩
    · rw [heq]
      exact hget
    · intro t ht
      exact lt_nextId (List.mem_map_of_mem _ ht)
  · intro h
    rcases insert_speech_result h title duration views date topic speaker with
      ⟨t, k, _, _, _, _, heq⟩
    rw [heq]
    refine ⟨_, rfl, ?_⟩
    intro sp hsp
    have hsps : ((insert_speaker (insert_topic s topic).1 speaker).1).speeches =
        s.speeches := by
      rw [insert_speaker_speeches, insert_topic_speeches]
    show sp.speech_id < nextSpeechId ((insert_speaker (insert_topic s topic).1 speaker).1)
    unfold nextSpeechId
    rw [hsps]
    exact lt_nextId (List.mem_map_of_mem _ hsp)
  · intro d0 hd0
    rw [insert_review_eq_of_some content hd0]
    have hnone : s.reviews.find? (fun r => r.review_id == nextReviewId s) = none := by
      rw [List.find?_eq_none]
      intro r hr
      simp only [beq_iff_eq]
      exact Nat.ne_of_lt (lt_nextId (List.mem_map_of_mem _ hr))
    have hfind : (s.reviews ++ [(⟨nextReviewId s, content, d0.speech_id⟩ : ReviewRow)]).find?
        (fun r => r.review_id == nextReviewId s) =
        some ⟨nextReviewId s, content, d0.speech_id⟩ := by
      rw [find?_append_of_none hnone]
      simp [List.find?]
    rcases get_speech_by_id_inv hd0 with ⟨row, _, hrmem, _, hdid⟩
    rcases find?_of_exists (p := fun x => x.speech_id == d0.speech_id)
      ⟨row, hrmem, by simp [hdid]⟩ with ⟨sp', hsp', _, _⟩
    have hj : joinReview
        { s with reviews := s.reviews ++ [⟨nextReviewId s, content, d0.speech_id⟩] }
        ⟨nextReviewId s, content, d0.speech_id⟩ =
        some ⟨nextReviewId s, content, d0.speech_id, sp'.title⟩ := by
      have hrw : joinReview
          { s with reviews := s.reviews ++ [⟨nextReviewId s, content, d0.speech_id⟩] }
          ⟨nextReviewId s, content, d0.speech_id⟩ =
          (s.speeches.find? (fun x => x.speech_id == d0.speech_id)).map
            (fun sp => ⟨nextReviewId s, content, d0.speech_id, sp.title⟩) := rfl
      rw [hrw, hsp']
      rfl
    refine ⟨⟨nextReviewId s, content, d0.speech_id, sp'.title⟩, ?_, ?_⟩
    · have hrw : get_review_by_id
          { s with reviews := s.reviews ++ [⟨nextReviewId s, content, d0.speech_id⟩] }
          (nextReviewId s) =
          ((s.reviews ++ [(⟨nextReviewId s, content, d0.speech_id⟩ : ReviewRow)]).find?
            (fun r => r.review_id == nextReviewId s)).bind
            (joinReview { s with reviews :=
              s.reviews ++ [⟨nextReviewId s, content, d0.speech_id⟩] }) := rfl
      show Sum.inl (get_review_by_id
        { s with reviews := s.reviews ++ [⟨nextReviewId s, content, d0.speech_id⟩] }
        (nextReviewId s)) =
        (Sum.inl (some (⟨nextReviewId s, content, d0.speech_id, sp'.title⟩ : ReviewDict))
          : Option ReviewDict ⊕ Nat)
      rw [hrw, hfind]
      exact congrArg Sum.inl hj
    · intro r hr
      exact lt_nextId (List.mem_map_of_mem _ hr)

/-- C6 witness: fresh inserts into a one-speaker, one-topic store receive
strictly larger ids. -/
theorem claim_C6_witness :
    (∃ r', (insert_speaker ⟨[⟨1, "alice"⟩], [⟨1, "art"⟩], [], []⟩ "bob").2 = some r' ∧
      ∀ r ∈ (⟨[⟨1, "alice"⟩], [⟨1, "art"⟩], [], []⟩ : DBState).speakers,
        r.speaker_id < r'.speaker_id) ∧
    (∃ t', (insert_topic ⟨[⟨1, "alice"⟩], [⟨1, "art"⟩], [], []⟩ "bio").2 = some t' ∧
      ∀ t ∈ (⟨[⟨1, "alice"⟩], [⟨1, "art"⟩], [], []⟩ : DBState).topics,
        t.topic_id < t'.topic_id) ∧
    (∃ d, (insert_speech ⟨[⟨1, "alice"⟩], [⟨1, "art"⟩], [], []⟩
        "T" 10 20 "D" "art" "alice").2 = some d ∧
      ∀ sp ∈ (⟨[⟨1, "alice"⟩], [⟨1, "art"⟩], [], []⟩ : DBState).speeches,
        sp.speech_id < d.speech_id) := by
  obtain ⟨h1, h2, h3, _⟩ :=
    claim_C6 (⟨[⟨1, "alice"⟩], [⟨1, "art"⟩], [], []⟩ : DBState)
      "bob" "c" "T" "D" "art" "alice" 10 20 0
  obtain ⟨_, h2', _, _⟩ :=
    claim_C6 (⟨[⟨1, "alice"⟩], [⟨1, "art"⟩], [], []⟩ : DBState)
      "bio" "c" "T" "D" "art" "alice" 10 20 0
  exact ⟨h1 (by decide), h2' (by decide), h3 (by decide)⟩

end TedTalkDB
